import Mathlib

/-!
Verification development for the async_app repository.

The development shallowly embeds the parts of the code that the checked
properties are about:

* `src/async_app/utils.py`: the `AsyncExitStack` unwind machinery
  (`_BaseExitStack._shutdown_loop` driven by `AsyncExitStack.__aexit__`)
  and the `TaskGroup` scope-exit behaviour.
* `src/async_app/app.py`: the `Runnable` lifecycle (`start`, `run`,
  `stop`, `abort`, `on_run_done`, the `is_started`/`is_alive`/`is_done`
  properties) and `Service.config`.

Python exceptions are modelled by `Exc`, a numeric identifier together
with the implicit chain recorded in `__context__` (the chain that
`_fix_exception_context` maintains during an unwind).  Cooperative
cancellation delivered at an await point is modelled as the awaited
step raising a distinguished exception (that is exactly how a
cancellation manifests at the single await the caller is suspended on).
-/

/-- Python exception value: an identifier plus the recorded context chain
(`__context__`).  `base i` is an exception with no context; `chained i c`
is an exception whose context chain is `c`. -/
inductive Exc where
  | base (excId : Nat)
  | chained (excId : Nat) (ctx : Exc)
deriving DecidableEq, Repr

/-- Build an exception with the given identifier and optional context,
mirroring how `_fix_exception_context` links a newly raised exception to
the previously pending one. -/
def Exc.mkCtx (i : Nat) : Option Exc → Exc
  | none => .base i
  | some c => .chained i c

/-- Behaviour of one exit callback when invoked with the current pending
exception state: return a truthy result (suppress), return a falsy
result, or raise a fresh exception.  A cancellation delivered while the
callback is suspended is observed by the driver as the awaited result
raising `CancelledError`, hence it is also a `raiseExc` here. -/
inductive CbBehavior where
  | ret (suppress : Bool)
  | raiseExc (excId : Nat)
deriving DecidableEq, Repr

/-- One registered exit callback: an identity (used to record invocation
order) and its behaviour as a function of the pending exception state it
receives. -/
structure Entry where
  entryId : Nat
  behavior : Option Exc → CbBehavior

/-- The exception bookkeeping of `_shutdown_loop`: `exc_details` together
with the `pending_raise` flag.  `noPending t` is `pending_raise = False`
with `exc_details = t` (initially the trigger of the unwind);
`pendingRaise e` is `pending_raise = True` with `exc_details = e`. -/
inductive PendState where
  | noPending (t : Option Exc)
  | pendingRaise (e : Exc)
deriving DecidableEq, Repr

/-- The `exc_details` tuple currently held by the loop. -/
def PendState.excDetails : PendState → Option Exc
  | .noPending t => t
  | .pendingRaise e => some e

/-- The body of `_BaseExitStack._shutdown_loop` as driven by
`AsyncExitStack.__aexit__`: pop callbacks one at a time, call each with
the current `exc_details`; a truthy result sets `suppressed_exc`, clears
`pending_raise` and resets `exc_details` to none; a raise (delivered to
the generator either directly or via `gen.throw` from the driver, and
caught by the bare `except:`) chains the previous `exc_details` as the
context of the new exception, which becomes the pending state.  Returns
the invocation trace (callback id, `exc_details` passed to it), the
final pending state and the final `suppressed_exc` flag. -/
def shutdownAux : List Entry → PendState → Bool →
    List (Nat × Option Exc) × PendState × Bool
  | [], st, suppressed => ([], st, suppressed)
  | cb :: rest, st, suppressed =>
    match cb.behavior st.excDetails with
    | .ret true =>
      let res := shutdownAux rest (.noPending none) true
      ((cb.entryId, st.excDetails) :: res.1, res.2)
    | .ret false =>
      let res := shutdownAux rest st suppressed
      ((cb.entryId, st.excDetails) :: res.1, res.2)
    | .raiseExc i =>
      let res := shutdownAux rest (.pendingRaise (Exc.mkCtx i st.excDetails)) suppressed
      ((cb.entryId, st.excDetails) :: res.1, res.2)

/-- The `_exit_callbacks` deque in registration order; the unwind pops
from the end (LIFO). -/
structure AsyncExitStack where
  exit_callbacks : List Entry

/-- What the `__aexit__` call delivers back to the `async with`
statement: a raised exception (the `if pending_raise: raise` tail of
`_shutdown_loop`) or the generator return value
`received_exc and suppressed_exc`. -/
inductive AexitResult where
  | raised (e : Exc)
  | returned (suppress : Bool)
deriving DecidableEq, Repr

/-- `AsyncExitStack.__aexit__`: run the shutdown loop over the callbacks
in reverse registration order starting from the triggering exception.
The loop pops every entry, so the stack is empty afterwards.  Returns
the emptied stack, the invocation trace and the result delivered to the
caller. -/
def AsyncExitStack.aexit (s : AsyncExitStack) (trigger : Option Exc) :
    AsyncExitStack × List (Nat × Option Exc) × AexitResult :=
  let receivedExc := trigger.isSome
  let r := shutdownAux s.exit_callbacks.reverse (.noPending trigger) false
  (⟨[]⟩, r.1,
    match r.2.1 with
    | .pendingRaise e => .raised e
    | .noPending _ => .returned (receivedExc && r.2.2))

/-- The exception that actually reaches the caller of the scope exit:
an exception raised by `__aexit__` itself propagates; otherwise the
triggering exception propagates unless `__aexit__` returned a truthy
suppression value. -/
def scopeExitObservable (s : AsyncExitStack) (trigger : Option Exc) : Option Exc :=
  match (s.aexit trigger).2.2 with
  | .raised e => some e
  | .returned b => if b then none else trigger

/-- Modelled from the spec words for the unwind algorithm (section 4.3):
pop entries one at a time in reverse of push order, invoke each with the
current pending exception state; suppression clears the pending state
for all subsequent entries; a raise chains the previously pending
exception as the cause of the new one, which becomes the pending state;
after the drain a remaining pending exception is re-raised to the
caller, otherwise the unwind returns cleanly.  Takes the entries already
in pop order and returns the invocation trace and the final pending
exception. -/
def unwindSpec : List Entry → Option Exc → List (Nat × Option Exc) × Option Exc
  | [], pending => ([], pending)
  | cb :: rest, pending =>
    match cb.behavior pending with
    | .ret true =>
      let r := unwindSpec rest none
      ((cb.entryId, pending) :: r.1, r.2)
    | .ret false =>
      let r := unwindSpec rest pending
      ((cb.entryId, pending) :: r.1, r.2)
    | .raiseExc i =>
      let r := unwindSpec rest (some (Exc.mkCtx i pending))
      ((cb.entryId, pending) :: r.1, r.2)

/-! ## TaskGroup (`src/async_app/utils.py`) -/

/-- Terminal state of a scheduled task: returned, raised, or was
cancelled. -/
inductive Terminal where
  | ok
  | err (excId : Nat)
  | cancelled
deriving DecidableEq, Repr

/-- A member task of a `TaskGroup`: an identity, its state at scope exit
(`none` while still pending, otherwise its terminal state), and the
terminal state it settles into after being cancelled and drained (a
cancelled task normally ends `cancelled`, but may end differently if it
catches the cancellation). -/
structure GTask where
  taskId : Nat
  state : Option Terminal
  afterCancel : Terminal
deriving DecidableEq, Repr

/-- The membership set `TaskGroup._tasks`. -/
structure TaskGroup where
  tasks : List GTask

/-- Terminal state a member reaches during the scope-exit drain:
an already finished member keeps its recorded outcome (`Task.cancel` on
a done task is a no-op), a pending member is cancelled and settles. -/
def GTask.drainResult (t : GTask) : Terminal :=
  match t.state with
  | some s => s
  | none => t.afterCancel

/-- Outcome of `TaskGroup.__aexit__`: the final membership set, the ids
`cancel()` was called on, the terminal state every member reached
before the scope exit returned, and whether the scope exit itself
raised. -/
structure TGExit where
  group : TaskGroup
  cancelCalls : List Nat
  drained : List (Nat × Terminal)
  raised : Bool

/-- `TaskGroup.__aexit__`: if the set is non-empty, call `cancel()` on
every member, then `asyncio.wait(..., return_when=ALL_COMPLETED)` waits
until every member reaches a terminal state without propagating any
member exception or cancellation, and the set is reset to empty. -/
def TaskGroup.aexit (g : TaskGroup) : TGExit :=
  if g.tasks.isEmpty then ⟨g, [], [], false⟩
  else
    ⟨⟨[]⟩, g.tasks.map (·.taskId),
      g.tasks.map (fun t => (t.taskId, t.drainResult)), false⟩

/-! ## Runnable lifecycle (`src/async_app/app.py`) -/

/-- The three state flags of a `Runnable`: `_should_stop`,
`_is_initialized` and `_is_aborted`. -/
structure RFlags where
  shouldStop : Bool
  isInit : Bool
  isAborted : Bool
deriving DecidableEq, Repr

/-- Outcome of awaiting one phase future: returned, raised an exception
with the given id, or was cancelled. -/
inductive Outcome where
  | ok
  | exc (excId : Nat)
  | cancelled
deriving DecidableEq, Repr

/-- Failure information that `run` passes to `cleanup` via
`sys.exc_info()` when `main` does not return normally. -/
inductive MainFail where
  | exc (excId : Nat)
  | cancelled
deriving DecidableEq, Repr

/-- What a concrete `initialize` override does when the run awaits it:
whether it delegates to the base implementation (which sets
`_is_initialized`), whether it calls `stop()` or `abort()`, and the
outcome the `await self._initialize_f` in `run` observes.  Calling
`stop`/`abort` from inside the phase cancels the run task, which is why
the observed outcome is recorded separately from the flag effects. -/
structure SetupBehavior where
  setsInit : Bool
  callsStop : Bool
  callsAbort : Bool
  outcome : Outcome

/-- The subclass hooks a run executes: the setup phase, the outcome of
`main`, and `cleanup` as a function of the failure information it is
invoked with (`none` when `main` returned normally). -/
structure Phases where
  setup : SetupBehavior
  mainOutcome : Outcome
  cleanup : Option MainFail → Outcome

/-- Outcome of the whole run task: returned, raised the contract
violation `NotImplementedError` from line 188 of `app.py`, raised an
ordinary exception, or ended cancelled. -/
inductive RunOutcome where
  | ok
  | notImplemented
  | exc (excId : Nat)
  | cancelled
deriving DecidableEq, Repr

/-- The failure information `sys.exc_info()` yields when awaiting a
phase with the given outcome raises, if it does. -/
def mainFailOf : Outcome → Option MainFail
  | .ok => none
  | .exc e => some (.exc e)
  | .cancelled => some .cancelled

/-- The run outcome that re-raising a recorded `main` failure
produces. -/
def MainFail.surface : MainFail → RunOutcome
  | .exc e => .exc e
  | .cancelled => .cancelled

/-- Whether a run task holds an exception, i.e. `Task.exception()` is
not `None` (a cancelled task does not hold one; it raises instead). -/
def RunOutcome.holdsExc : RunOutcome → Bool
  | .exc _ => true
  | .notImplemented => true
  | .ok => false
  | .cancelled => false

/-- Everything observable about one execution of `Runnable.run`:
the outcome delivered to awaiters, the flags afterwards, how many times
each phase coroutine was created, and the argument `cleanup` received
(`none` when cleanup was never invoked). -/
structure RunResult where
  outcome : RunOutcome
  flags : RFlags
  setupCount : Nat
  mainCount : Nat
  cleanupCount : Nat
  cleanupArg : Option (Option MainFail)
deriving DecidableEq, Repr

/-- Flag effects of running the setup phase. -/
def applySetup (b : SetupBehavior) (f : RFlags) : RFlags :=
  { shouldStop := f.shouldStop || b.callsStop || b.callsAbort
    isInit := f.isInit || b.setsInit
    isAborted := f.isAborted || b.callsAbort }

/-- The body of `Runnable.run` (lines 182-205 of `app.py`): await the
setup future; if it raised or was cancelled that propagates and neither
`main` nor `cleanup` runs.  Otherwise, if neither `_is_initialized` nor
`_should_stop` is set, raise `NotImplementedError`; if `_should_stop`
is set, return.  Otherwise await `main`; on any exit of `main` schedule
`cleanup` exactly once, passing `sys.exc_info()` on the failure path.
On the failure path the bare `raise` after `await self._cleanup_f` is
reached only if that await itself does not raise, so an exception out
of `cleanup` replaces the original outcome. -/
def runModel (ph : Phases) (f0 : RFlags) : RunResult :=
  let f1 := applySetup ph.setup f0
  match ph.setup.outcome with
  | .exc e => ⟨.exc e, f1, 1, 0, 0, none⟩
  | .cancelled => ⟨.cancelled, f1, 1, 0, 0, none⟩
  | .ok =>
    if !f1.isInit && !f1.shouldStop then ⟨.notImplemented, f1, 1, 0, 0, none⟩
    else if f1.shouldStop then ⟨.ok, f1, 1, 0, 0, none⟩
    else
      match ph.mainOutcome with
      | .ok =>
        match ph.cleanup none with
        | .ok => ⟨.ok, f1, 1, 1, 1, some none⟩
        | .exc e2 => ⟨.exc e2, f1, 1, 1, 1, some none⟩
        | .cancelled => ⟨.cancelled, f1, 1, 1, 1, some none⟩
      | .exc e =>
        match ph.cleanup (some (.exc e)) with
        | .ok => ⟨.exc e, f1, 1, 1, 1, some (some (.exc e))⟩
        | .exc e2 => ⟨.exc e2, f1, 1, 1, 1, some (some (.exc e))⟩
        | .cancelled => ⟨.cancelled, f1, 1, 1, 1, some (some (.exc e))⟩
      | .cancelled =>
        match ph.cleanup (some .cancelled) with
        | .ok => ⟨.cancelled, f1, 1, 1, 1, some (some .cancelled)⟩
        | .exc e2 => ⟨.exc e2, f1, 1, 1, 1, some (some .cancelled)⟩
        | .cancelled => ⟨.cancelled, f1, 1, 1, 1, some (some .cancelled)⟩

/-- `Runnable.on_run_done` (lines 229-244 of `app.py`): a cancelled run
task sets no flag beyond `_should_stop`; a run task that holds an
exception additionally sets `_is_aborted`; `_should_stop` is set
unconditionally. -/
def onRunDone (out : RunOutcome) (f : RFlags) : RFlags :=
  let f1 :=
    match out with
    | .cancelled => f
    | .exc _ => { f with isAborted := true }
    | .notImplemented => { f with isAborted := true }
    | .ok => f
  { f1 with shouldStop := true }

/-- A full run execution followed by its done callback. -/
def completeRun (ph : Phases) (f0 : RFlags) : RunResult :=
  let r := runModel ph f0
  { r with flags := onRunDone r.outcome r.flags }

/-- The `_run_f` handle: whether the task is done at the observation
point, and the result the task eventually settles on. -/
structure RunHandle where
  done : Bool
  result : RunResult
deriving DecidableEq, Repr

/-- A `Runnable` instance: its flags and its optional `_run_f` handle. -/
structure Runnable where
  flags : RFlags
  runF : Option RunHandle

/-- A freshly constructed `Runnable` (`__init__`): no handle, all flags
false. -/
def Runnable.mkFresh : Runnable := ⟨⟨false, false, false⟩, none⟩

/-- `Runnable.stop`: on the first call set `_should_stop`; also cancels
`_run_f` when started (the effect of that cancellation on an in-flight
run is represented through the phase outcomes fed to `runModel`). -/
def Runnable.stop (r : Runnable) : Runnable :=
  if !r.flags.shouldStop then
    { r with flags := { r.flags with shouldStop := true } }
  else r

/-- `Runnable.abort`: set `_is_aborted`, then `stop`. -/
def Runnable.abort (r : Runnable) : Runnable :=
  Runnable.stop { r with flags := { r.flags with isAborted := true } }

/-- Eventual result of the run task scheduled by `start`.  If
`_should_stop` was already set, `start` cancels the fresh task before
its first step, so the coroutine body never executes (no phase is ever
invoked) and only `on_run_done` fires with a cancelled task. -/
def scheduledResult (shouldStopAtStart : Bool) (ph : Phases) (f : RFlags) : RunResult :=
  if shouldStopAtStart then ⟨.cancelled, onRunDone .cancelled f, 0, 0, 0, none⟩
  else completeRun ph f

/-- `Runnable.start` (lines 160-180 of `app.py`): raise `RuntimeError`
if `_run_f` is already set, otherwise schedule the run task (not yet
done) and cancel it immediately when `should_stop` already holds.  The
second component records whether the call raised. -/
def Runnable.start (r : Runnable) (ph : Phases) : Runnable × Bool :=
  match r.runF with
  | some _ => (r, true)
  | none =>
    ({ r with runF := some ⟨false, scheduledResult r.flags.shouldStop ph r.flags⟩ },
      false)

/-- Truthiness-carrying Python value as returned by the `is_alive` and
`is_done` properties: `x and y` evaluates to `x` itself when `x` is
falsy, so before `start` these properties return `None`, not `False`. -/
inductive PyTruth where
  | pyNone
  | pyBool (b : Bool)
deriving DecidableEq, Repr

/-- Python truthiness of such a value. -/
def PyTruth.truthy : PyTruth → Bool
  | .pyNone => false
  | .pyBool b => b

/-- `Runnable.is_started`: `self._run_f is not None`. -/
def Runnable.is_started (r : Runnable) : Bool := r.runF.isSome

/-- `Runnable.is_alive`: `self._run_f and not self._run_f.done()`. -/
def Runnable.is_alive (r : Runnable) : PyTruth :=
  match r.runF with
  | none => .pyNone
  | some h => .pyBool !h.done

/-- `Runnable.is_done`: `self._run_f and self._run_f.done()`. -/
def Runnable.is_done (r : Runnable) : PyTruth :=
  match r.runF with
  | none => .pyNone
  | some h => .pyBool h.done

/-- `Runnable.__await__`: deliver the run outcome when started, raise
`RuntimeError` otherwise. -/
def Runnable.awaitResult (r : Runnable) : Except Unit RunOutcome :=
  match r.runF with
  | some h => .ok h.result.outcome
  | none => .error ()

/-! ## Service configuration (`src/async_app/app.py`, lines 420-422) -/

/-- A configuration object as far as truthiness and identity are
concerned: `Config` is a `UserDict`, so its truthiness is whether it
holds any entry. -/
structure ConfigV where
  size : Nat
  cid : Nat
deriving DecidableEq, Repr

/-- Python truthiness of an optional configuration value: `None` is
falsy, an empty mapping is falsy. -/
def pyTruthyConfig : Option ConfigV → Bool
  | none => false
  | some c => c.size != 0

/-- `Service.config`: `self._config or self.app.config`, for a service
whose owning app carries `appConfig`. -/
def Service.config (own appConfig : Option ConfigV) : Option ConfigV :=
  if pyTruthyConfig own then own else appConfig

/-! ## Concrete instances used in the checks below -/

/-- An exit callback that returns a falsy value. -/
def cbPlain (i : Nat) : Entry := ⟨i, fun _ => .ret false⟩

/-- An exit callback whose await has a cancellation delivered into it:
the driver observes `CancelledError` (exception id 0). -/
def cbCancelled (i : Nat) : Entry := ⟨i, fun _ => .raiseExc 0⟩

/-- Two entries registered in order; the one popped first is suspended
and cancelled during the unwind. -/
def stackCancelMid : AsyncExitStack := ⟨[cbPlain 10, cbCancelled 20]⟩

/-- Ordinary setup that delegates to the base implementation. -/
def setupOk : SetupBehavior := ⟨true, false, false, .ok⟩

/-- Fresh flags of a just-constructed `Runnable`. -/
def flags0 : RFlags := ⟨false, false, false⟩

/-- Phases where `main` raises exception 1 and `cleanup` itself raises
exception 2. -/
def phasesCleanupAlsoRaises : Phases := ⟨setupOk, .exc 1, fun _ => .exc 2⟩

/-- Phases where `main` is cancelled and `cleanup` returns normally. -/
def phasesMainCancelled : Phases := ⟨setupOk, .cancelled, fun _ => .ok⟩

/-- Phases where every hook completes normally. -/
def phasesPlain : Phases := ⟨setupOk, .ok, fun _ => .ok⟩

/-- Phases where `main` raises exception 5 and `cleanup` returns
normally. -/
def phasesMainRaises : Phases := ⟨setupOk, .exc 5, fun _ => .ok⟩

/-- Phases whose setup neither delegates to the base implementation nor
stops nor aborts. -/
def phasesBadSetup : Phases := ⟨⟨false, false, false, .ok⟩, .ok, fun _ => .ok⟩

/-- A concrete task group: one member already finished normally, one
member still pending that settles cancelled, one member already failed. -/
def groupABC : TaskGroup :=
  ⟨[⟨1, some .ok, .ok⟩, ⟨2, none, .cancelled⟩, ⟨3, some (.err 7), .err 7⟩]⟩

/-! ## Helper lemmas for the unwind refinement -/

theorem shutdownAux_spec : ∀ (cbs : List Entry) (st : PendState) (supp : Bool),
    (shutdownAux cbs st supp).1 = (unwindSpec cbs st.excDetails).1 ∧
    ((shutdownAux cbs st supp).2.1).excDetails = (unwindSpec cbs st.excDetails).2
  | [], st, supp => ⟨rfl, rfl⟩
  | cb :: rest, st, supp => by
    cases h : cb.behavior st.excDetails with
    | ret b =>
      cases b with
      | true =>
        have ih := shutdownAux_spec rest (.noPending none) true
        simp only [shutdownAux, unwindSpec, h]
        exact ⟨by rw [ih.1]; rfl, by rw [ih.2]; rfl⟩
      | false =>
        have ih := shutdownAux_spec rest st supp
        simp only [shutdownAux, unwindSpec, h]
        exact ⟨by rw [ih.1], by rw [ih.2]⟩
    | raiseExc i =>
      have ih := shutdownAux_spec rest (.pendingRaise (Exc.mkCtx i st.excDetails)) supp
      simp only [shutdownAux, unwindSpec, h]
      exact ⟨by rw [ih.1]; rfl, by rw [ih.2]; rfl⟩

theorem shutdownAux_noPending : ∀ (cbs : List Entry) (st : PendState) (supp : Bool)
    (t : Option Exc), (shutdownAux cbs st supp).2.1 = .noPending t →
    (t = none ∧ (shutdownAux cbs st supp).2.2 = true) ∨
    (st = .noPending t ∧ (shutdownAux cbs st supp).2.2 = supp)
  | [], st, supp, t => by
    intro h
    exact Or.inr ⟨h ▸ rfl, rfl⟩
  | cb :: rest, st, supp, t => by
    cases h : cb.behavior st.excDetails with
    | ret b =>
      cases b with
      | true =>
        simp only [shutdownAux, h]
        intro hfin
        rcases shutdownAux_noPending rest (.noPending none) true t hfin with
          ⟨h1, h2⟩ | ⟨h1, h2⟩
        · exact Or.inl ⟨h1, h2⟩
        · exact Or.inl ⟨by cases h1; rfl, h2⟩
      | false =>
        simp only [shutdownAux, h]
        intro hfin
        exact shutdownAux_noPending rest st supp t hfin
    | raiseExc i =>
      simp only [shutdownAux, h]
      intro hfin
      rcases shutdownAux_noPending rest (.pendingRaise (Exc.mkCtx i st.excDetails))
          supp t hfin with ⟨h1, h2⟩ | ⟨h1, h2⟩
      · exact Or.inl ⟨h1, h2⟩
      · exact absurd h1 (by simp)

theorem unwindSpec_trace_ids : ∀ (cbs : List Entry) (p : Option Exc),
    ((unwindSpec cbs p).1).map Prod.fst = cbs.map Entry.entryId
  | [], _ => rfl
  | cb :: rest, p => by
    cases h : cb.behavior p with
    | ret b =>
      cases b with
      | true =>
        simp only [unwindSpec, h, List.map_cons]
        rw [unwindSpec_trace_ids rest none]
      | false =>
        simp only [unwindSpec, h, List.map_cons]
        rw [unwindSpec_trace_ids rest p]
    | raiseExc i =>
      simp only [unwindSpec, h, List.map_cons]
      rw [unwindSpec_trace_ids rest (some (Exc.mkCtx i p))]

/-! ## The claims -/

/-- C2: for every `AsyncExitStack` unwind over any registered entries,
the entries are invoked one at a time in exact reverse registration
order, each receiving the current pending exception state; suppression
clears the pending state for subsequent entries only; a raising entry
gets the previously pending exception chained as the cause of the new
one, which becomes pending; after the drain a remaining pending
exception reaches the caller and otherwise the unwind is clean; and the
stack is left empty.  Stated as: the code-side unwind produces exactly
the trace and the observable outcome of `unwindSpec`, the algorithm
transcribed from the spec wording, and empties the stack. -/
theorem exitStack_unwind_refines_spec (s : AsyncExitStack) (trigger : Option Exc) :
    (s.aexit trigger).2.1 = (unwindSpec s.exit_callbacks.reverse trigger).1 ∧
    ((s.aexit trigger).2.1).map Prod.fst = (s.exit_callbacks.map Entry.entryId).reverse ∧
    scopeExitObservable s trigger = (unwindSpec s.exit_callbacks.reverse trigger).2 ∧
    (s.aexit trigger).1.exit_callbacks = [] := by
  have hspec := shutdownAux_spec s.exit_callbacks.reverse (.noPending trigger) false
  have htrace : (s.aexit trigger).2.1 = (unwindSpec s.exit_callbacks.reverse trigger).1 := by
    simpa only [AsyncExitStack.aexit, PendState.excDetails] using hspec.1
  refine ⟨htrace, ?_, ?_, rfl⟩
  · rw [htrace, unwindSpec_trace_ids, List.map_reverse]
  · show (match (s.aexit trigger).2.2 with
      | .raised e => some e
      | .returned b => if b then none else trigger) = _
    have hdet := hspec.2
    cases hfin : (shutdownAux s.exit_callbacks.reverse (.noPending trigger) false).2.1 with
    | pendingRaise e =>
      rw [hfin] at hdet
      simp only [AsyncExitStack.aexit, hfin]
      exact hdet
    | noPending t =>
      rw [hfin] at hdet
      simp only [PendState.excDetails] at hdet
      rcases shutdownAux_noPending s.exit_callbacks.reverse (.noPending trigger) false
          t hfin with ⟨h1, hs⟩ | ⟨h1, hs⟩
      · subst h1
        cases trigger with
        | none => simp only [AsyncExitStack.aexit, hfin, hs]; simpa using hdet
        | some e0 => simp only [AsyncExitStack.aexit, hfin, hs]; simpa using hdet
      · have ht : trigger = t := by injection h1
        subst ht
        simp only [AsyncExitStack.aexit, hfin, hs]
        simpa using hdet

/-- C3 counterexample: two entries are registered (ids 10 then 20), the
unwind starts clean, and while entry 20 (popped first) is suspended the
surrounding task is cancelled, so awaiting it raises `CancelledError`
(exception id 0).  The claim says entry 10 is then never invoked; the
code invokes it (it appears in the trace, receiving the cancellation as
pending state) and re-raises the cancellation only afterwards. -/
theorem exitStack_cancel_truncation_counterexample :
    (stackCancelMid.aexit none).2.1 = [(20, none), (10, some (Exc.base 0))] ∧
    scopeExitObservable stackCancelMid none = some (Exc.base 0) :=
  ⟨rfl, rfl⟩

theorem shutdownAux_all_plain : ∀ (cbs : List Entry) (st : PendState) (supp : Bool),
    (∀ cb ∈ cbs, ∀ p, cb.behavior p = .ret false) →
    (shutdownAux cbs st supp).2 = (st, supp)
  | [], _, _ => fun _ => rfl
  | cb :: rest, st, supp => by
    intro hall
    have hcb := hall cb (List.mem_cons_self cb rest) st.excDetails
    simp only [shutdownAux, hcb]
    exact shutdownAux_all_plain rest st supp
      (fun c hc p => hall c (List.mem_cons_of_mem cb hc) p)

/-- C3 amended: if the surrounding task is cancelled while the entry
popped first is suspended (its await raises `CancelledError`), the
unwind is not truncated: the cancellation becomes the pending exception
state, every remaining entry is still invoked (the trace continues over
all of them, exactly as the spec algorithm prescribes for a raising
entry), and when the remaining entries neither raise nor suppress the
cancellation is re-raised to the caller only after the drain. -/
theorem exitStack_cancel_continues_unwind (rest : List Entry) (trigger : Option Exc)
    (i eid : Nat) :
    ((AsyncExitStack.mk (rest ++ [⟨eid, fun _ => .raiseExc i⟩])).aexit trigger).2.1 =
      (eid, trigger) :: (unwindSpec rest.reverse (some (Exc.mkCtx i trigger))).1 ∧
    (((AsyncExitStack.mk (rest ++ [⟨eid, fun _ => .raiseExc i⟩])).aexit trigger).2.1).map
        Prod.fst = eid :: (rest.map Entry.entryId).reverse ∧
    ((∀ cb ∈ rest, ∀ p, cb.behavior p = .ret false) →
      scopeExitObservable ⟨rest ++ [⟨eid, fun _ => .raiseExc i⟩]⟩ trigger =
        some (Exc.mkCtx i trigger)) := by
  have hrev : (rest ++ [(⟨eid, fun _ => .raiseExc i⟩ : Entry)]).reverse =
      (⟨eid, fun _ => .raiseExc i⟩ : Entry) :: rest.reverse := by
    simp
  have hstep : shutdownAux ((rest ++ [(⟨eid, fun _ => .raiseExc i⟩ : Entry)]).reverse)
      (.noPending trigger) false =
      ((eid, trigger) ::
        (shutdownAux rest.reverse (.pendingRaise (Exc.mkCtx i trigger)) false).1,
        (shutdownAux rest.reverse (.pendingRaise (Exc.mkCtx i trigger)) false).2) := by
    rw [hrev]
    rfl
  have hspec := shutdownAux_spec rest.reverse (.pendingRaise (Exc.mkCtx i trigger)) false
  have htrace : ((AsyncExitStack.mk (rest ++ [⟨eid, fun _ => .raiseExc i⟩])).aexit
      trigger).2.1 = (eid, trigger) ::
      (unwindSpec rest.reverse (some (Exc.mkCtx i trigger))).1 := by
    simp only [AsyncExitStack.aexit, hstep]
    rw [hspec.1]
    rfl
  refine ⟨htrace, ?_, ?_⟩
  · rw [htrace]
    simp only [List.map_cons]
    rw [unwindSpec_trace_ids, List.map_reverse]
  · intro hall
    have hfin := shutdownAux_all_plain rest.reverse
      (.pendingRaise (Exc.mkCtx i trigger)) false
      (fun c hc p => hall c (List.mem_reverse.mp hc) p)
    show (match ((AsyncExitStack.mk (rest ++ [⟨eid, fun _ => .raiseExc i⟩])).aexit
        trigger).2.2 with
      | .raised e => some e
      | .returned b => if b then none else trigger) = _
    simp only [AsyncExitStack.aexit, hstep, hfin]

/-- Witness for the amended C3 statement at a concrete stack: one plain
entry below the cancelled one, unwinding with no trigger. -/
theorem exitStack_cancel_continues_unwind_witness :
    scopeExitObservable ⟨[cbPlain 3] ++ [⟨4, fun _ => .raiseExc 9⟩]⟩ none =
      some (Exc.base 9) :=
  (exitStack_cancel_continues_unwind [cbPlain 3] none 9 4).2.2
    (by
      intro cb hcb p
      rcases List.mem_singleton.mp hcb with rfl
      rfl)

/-- C1 counterexample: `main` raises exception 1 and `cleanup` raises
exception 2 during the failure path.  `cleanup` does receive the
failure information of `main`, but the run surfaces exception 2, not
the exception 1 that `main` raised, refuting the claim that the outcome
main raised is what the run surfaces even if cleanup also raises. -/
theorem cleanup_masks_main_error_counterexample :
    (completeRun phasesCleanupAlsoRaises flags0).cleanupArg =
      some (some (.exc 1)) ∧
    (completeRun phasesCleanupAlsoRaises flags0).outcome = .exc 2 ∧
    RunOutcome.exc 2 ≠ RunOutcome.exc 1 := by
  decide

/-- C1 amended: when `main` fails (exception or cancellation) after a
setup phase that completed normally with `_is_initialized` set and
`_should_stop` clear, `cleanup` is invoked exactly once and receives
that failure information; if `cleanup` itself completes normally the
original failure is what the run surfaces, but if `cleanup` raises,
the exception raised by `cleanup` is what the run surfaces. -/
theorem cleanup_on_main_failure (ph : Phases) (f0 : RFlags) (mf : MainFail)
    (hset : ph.setup.outcome = .ok)
    (hinit : (applySetup ph.setup f0).isInit = true)
    (hstop : (applySetup ph.setup f0).shouldStop = false)
    (hmain : mainFailOf ph.mainOutcome = some mf) :
    (completeRun ph f0).cleanupCount = 1 ∧
    (completeRun ph f0).cleanupArg = some (some mf) ∧
    (ph.cleanup (some mf) = .ok → (completeRun ph f0).outcome = mf.surface) ∧
    (∀ e2, ph.cleanup (some mf) = .exc e2 →
      (completeRun ph f0).outcome = .exc e2) := by
  cases hm : ph.mainOutcome with
  | ok =>
    rw [hm] at hmain
    exact absurd hmain (by simp [mainFailOf])
  | exc e =>
    rw [hm] at hmain
    have hmf : mf = .exc e := by
      simp only [mainFailOf, Option.some_inj] at hmain
      exact hmain.symm
    subst hmf
    cases hc : ph.cleanup (some (.exc e)) with
    | ok =>
      refine ⟨?_, ?_, ?_, ?_⟩ <;>
        simp [completeRun, runModel, onRunDone, hset, hm, hinit, hstop, hc,
          MainFail.surface]
    | exc e2 =>
      refine ⟨?_, ?_, ?_, ?_⟩ <;>
        simp [completeRun, runModel, onRunDone, hset, hm, hinit, hstop, hc]
    | cancelled =>
      refine ⟨?_, ?_, ?_, ?_⟩ <;>
        simp [completeRun, runModel, onRunDone, hset, hm, hinit, hstop, hc]
  | cancelled =>
    rw [hm] at hmain
    have hmf : mf = .cancelled := by
      simp only [mainFailOf, Option.some_inj] at hmain
      exact hmain.symm
    subst hmf
    cases hc : ph.cleanup (some .cancelled) with
    | ok =>
      refine ⟨?_, ?_, ?_, ?_⟩ <;>
        simp [completeRun, runModel, onRunDone, hset, hm, hinit, hstop, hc,
          MainFail.surface]
    | exc e2 =>
      refine ⟨?_, ?_, ?_, ?_⟩ <;>
        simp [completeRun, runModel, onRunDone, hset, hm, hinit, hstop, hc]
    | cancelled =>
      refine ⟨?_, ?_, ?_, ?_⟩ <;>
        simp [completeRun, runModel, onRunDone, hset, hm, hinit, hstop, hc]

/-- Witness for the amended C1 statement: `main` raises exception 5,
`cleanup` behaves and the run surfaces exception 5. -/
theorem cleanup_on_main_failure_witness :
    (completeRun phasesMainRaises flags0).cleanupCount = 1 ∧
    (completeRun phasesMainRaises flags0).outcome = .exc 5 :=
  ⟨(cleanup_on_main_failure phasesMainRaises flags0 (.exc 5) rfl rfl rfl rfl).1,
    (cleanup_on_main_failure phasesMainRaises flags0 (.exc 5) rfl rfl rfl rfl).2.2.1 rfl⟩

theorem runModel_flags (ph : Phases) (f0 : RFlags) :
    (runModel ph f0).flags = applySetup ph.setup f0 := by
  simp only [runModel]
  repeat' split
  all_goals rfl

theorem completeRun_isAborted (ph : Phases) (f0 : RFlags) :
    (completeRun ph f0).flags.isAborted =
      ((applySetup ph.setup f0).isAborted || (completeRun ph f0).outcome.holdsExc) := by
  have hfl := runModel_flags ph f0
  show (onRunDone (runModel ph f0).outcome (runModel ph f0).flags).isAborted = _
  cases ho : (runModel ph f0).outcome <;>
    simp [onRunDone, RunOutcome.holdsExc, hfl, completeRun, ho]

/-- C4 counterexample: a normally initialized run whose `main` is
cancelled (for example after a plain `stop()` call) and whose `cleanup`
returns normally.  `main` was invoked, the run is done as cancelled,
yet `is_aborted` is still false, refuting the claim that cancellation
of `main` makes `is_aborted` true by the time the run is done. -/
theorem cancelled_run_not_aborted_counterexample :
    (completeRun phasesMainCancelled flags0).mainCount = 1 ∧
    (completeRun phasesMainCancelled flags0).outcome = .cancelled ∧
    (completeRun phasesMainCancelled flags0).flags.isAborted = false := by
  decide

/-- C4 amended: `is_aborted` is monotone through a run; it is set by
the time the run is done whenever the run task ends holding an
exception (in particular whenever `main` raised and nothing replaced
that exception with a cancellation), and it is set only when it was
already set before the run, an explicit `abort()` happened during
setup, or the run ended holding an exception; a run that merely ends
cancelled leaves it false. -/
theorem is_aborted_characterization (ph : Phases) (f0 : RFlags) :
    ((completeRun ph f0).outcome.holdsExc = true →
      (completeRun ph f0).flags.isAborted = true) ∧
    (f0.isAborted = true → (completeRun ph f0).flags.isAborted = true) ∧
    ((completeRun ph f0).flags.isAborted = true →
      f0.isAborted = true ∨ ph.setup.callsAbort = true ∨
        (completeRun ph f0).outcome.holdsExc = true) ∧
    ((completeRun ph f0).outcome = .cancelled → f0.isAborted = false →
      ph.setup.callsAbort = false →
      (completeRun ph f0).flags.isAborted = false) := by
  have habt := completeRun_isAborted ph f0
  have hset : (applySetup ph.setup f0).isAborted =
      (f0.isAborted || ph.setup.callsAbort) := rfl
  refine ⟨?_, ?_, ?_, ?_⟩
  · intro h
    rw [habt, h, Bool.or_true]
  · intro h
    rw [habt, hset, h, Bool.true_or, Bool.true_or]
  · intro h
    rw [habt, hset] at h
    simpa [Bool.or_eq_true, or_assoc] using h
  · intro ho h0 hca
    rw [habt, hset, h0, hca, ho]
    rfl

/-- Witness for the amended C4 statement: a run whose `main` raises
exception 5 ends with `is_aborted` true. -/
theorem is_aborted_characterization_witness :
    (completeRun phasesMainRaises flags0).flags.isAborted = true :=
  (is_aborted_characterization phasesMainRaises flags0).1 (by decide)

/-- C5: a setup phase that completes normally without delegating to the
base implementation and without calling `stop()` or `abort()` makes the
run of a fresh `Runnable` fail with the distinct contract-violation
error (`NotImplementedError`), which awaiting the `Runnable` delivers,
and neither `main` nor `cleanup` is ever invoked. -/
theorem contract_violation_on_setup (ph : Phases)
    (hout : ph.setup.outcome = .ok) (hsi : ph.setup.setsInit = false)
    (hcs : ph.setup.callsStop = false) (hca : ph.setup.callsAbort = false) :
    (completeRun ph flags0).outcome = .notImplemented ∧
    (completeRun ph flags0).mainCount = 0 ∧
    (completeRun ph flags0).cleanupCount = 0 ∧
    (Runnable.mkFresh.start ph).1.awaitResult = .ok .notImplemented := by
  have hflags : applySetup ph.setup flags0 = ⟨false, false, false⟩ := by
    simp [applySetup, flags0, hsi, hcs, hca]
  have hrun : runModel ph flags0 =
      ⟨.notImplemented, ⟨false, false, false⟩, 1, 0, 0, none⟩ := by
    simp [runModel, hout, hflags]
  refine ⟨?_, ?_, ?_, ?_⟩
  · simp [completeRun, hrun]
  · simp [completeRun, hrun]
  · simp [completeRun, hrun]
  · have hF : (Runnable.mkFresh.start ph).1.runF =
        some ⟨false, completeRun ph flags0⟩ := rfl
    simp [Runnable.awaitResult, hF, completeRun, hrun]

/-- Witness for C5 at a concrete setup behaviour. -/
theorem contract_violation_on_setup_witness :
    (completeRun phasesBadSetup flags0).outcome = .notImplemented ∧
    (completeRun phasesBadSetup flags0).mainCount = 0 ∧
    (completeRun phasesBadSetup flags0).cleanupCount = 0 ∧
    (Runnable.mkFresh.start phasesBadSetup).1.awaitResult = .ok .notImplemented :=
  contract_violation_on_setup phasesBadSetup rfl rfl rfl rfl

/-- C6: calling `start` on a `Runnable` that already has a run handle
raises the usage `RuntimeError`, leaves the instance unchanged and in
particular keeps the original run handle; no second run is scheduled. -/
theorem start_twice_raises (r : Runnable) (ph : Phases) (h : RunHandle)
    (hr : r.runF = some h) :
    (r.start ph).2 = true ∧ (r.start ph).1 = r ∧ (r.start ph).1.runF = some h := by
  refine ⟨?_, ?_, ?_⟩ <;> simp [Runnable.start, hr]

/-- Witness for C6: a started `Runnable` with a finished plain run. -/
theorem start_twice_raises_witness :
    ((Runnable.mk flags0 (some ⟨true, completeRun phasesPlain flags0⟩)).start
        phasesPlain).2 = true ∧
    ((Runnable.mk flags0 (some ⟨true, completeRun phasesPlain flags0⟩)).start
        phasesPlain).1.runF = some ⟨true, completeRun phasesPlain flags0⟩ :=
  ⟨(start_twice_raises (Runnable.mk flags0 (some ⟨true, completeRun phasesPlain flags0⟩))
      phasesPlain ⟨true, completeRun phasesPlain flags0⟩ rfl).1,
    (start_twice_raises (Runnable.mk flags0 (some ⟨true, completeRun phasesPlain flags0⟩))
      phasesPlain ⟨true, completeRun phasesPlain flags0⟩ rfl).2.2⟩

/-- C7: calling `stop` (or `abort`) on a fresh `Runnable` before
`start` makes the subsequently scheduled run be cancelled immediately
after scheduling, before the run coroutine ever executes: the eventual
run outcome is `cancelled` and the setup, `main` and `cleanup` phases
are each invoked zero times.  The `start` call itself does not raise. -/
theorem stop_before_start_cancels (ph : Phases) :
    ((Runnable.mkFresh.stop).start ph).2 = false ∧
    ((Runnable.mkFresh.stop).start ph).1.runF =
      some ⟨false, ⟨.cancelled, ⟨true, false, false⟩, 0, 0, 0, none⟩⟩ ∧
    ((Runnable.mkFresh.abort).start ph).2 = false ∧
    ((Runnable.mkFresh.abort).start ph).1.runF =
      some ⟨false, ⟨.cancelled, ⟨true, false, true⟩, 0, 0, 0, none⟩⟩ :=
  ⟨rfl, rfl, rfl, rfl⟩

/-- C8: on `TaskGroup` scope exit with a non-empty membership set,
`cancel()` is called on every remaining member, all members are then
awaited until each reaches a terminal state (members that raised are
drained like the rest, with no early propagation), the set ends empty,
and the scope exit itself does not raise even though cancelled members
finish as cancelled. -/
theorem taskGroup_scope_exit_drains (g : TaskGroup) (hne : g.tasks ≠ []) :
    (g.aexit).group.tasks = [] ∧
    (g.aexit).cancelCalls = g.tasks.map GTask.taskId ∧
    (g.aexit).drained = g.tasks.map (fun t => (t.taskId, t.drainResult)) ∧
    (∀ t ∈ g.tasks, (t.taskId, t.drainResult) ∈ (g.aexit).drained) ∧
    (g.aexit).raised = false := by
  have he : g.tasks.isEmpty = false := by
    cases hg : g.tasks with
    | nil => exact absurd hg hne
    | cons a l => rfl
  refine ⟨?_, ?_, ?_, ?_, ?_⟩
  · simp [TaskGroup.aexit, he]
  · simp [TaskGroup.aexit, he]
  · simp [TaskGroup.aexit, he]
  · intro t ht
    have hd : (g.aexit).drained = g.tasks.map (fun t => (t.taskId, t.drainResult)) := by
      simp [TaskGroup.aexit, he]
    rw [hd]
    exact List.mem_map_of_mem _ ht
  · simp [TaskGroup.aexit, he]

/-- Witness for C8 at a concrete group holding a finished, a pending
and a failed member. -/
theorem taskGroup_scope_exit_drains_witness :
    (groupABC.aexit).group.tasks = [] ∧
    (groupABC.aexit).cancelCalls = [1, 2, 3] ∧
    (groupABC.aexit).drained = [(1, .ok), (2, .cancelled), (3, .err 7)] ∧
    (groupABC.aexit).raised = false :=
  ⟨(taskGroup_scope_exit_drains groupABC (by decide)).1,
    by
      rw [(taskGroup_scope_exit_drains groupABC (by decide)).2.1]
      decide,
    by
      rw [(taskGroup_scope_exit_drains groupABC (by decide)).2.2.1]
      decide,
    (taskGroup_scope_exit_drains groupABC (by decide)).2.2.2.2⟩

/-- C9 counterexample: a `Service` that carries its own configuration
object which happens to be empty (config id 1, zero entries), owned by
an app whose configuration is non-empty (config id 2).  The effective
configuration is the configuration of the app, not the own one, even
though the service carries one of its own, because the truthiness test
of the `or` expression treats the carried empty mapping as absent. -/
theorem service_config_empty_own_counterexample :
    Service.config (some ⟨0, 1⟩) (some ⟨2, 2⟩) = some ⟨2, 2⟩ ∧
    (some (⟨0, 1⟩ : ConfigV)).isSome = true ∧
    some (⟨0, 1⟩ : ConfigV) ≠ some (⟨2, 2⟩ : ConfigV) := by
  decide

/-- C9 amended: the effective configuration of a `Service` is its own
configuration exactly when that configuration is truthy (present and
non-empty); it falls back to the configuration of the owning app
exactly when its own configuration is `None` or empty. -/
theorem service_config_truthy_fallback (own appc : Option ConfigV) :
    (pyTruthyConfig own = true → Service.config own appc = own) ∧
    (pyTruthyConfig own = false → Service.config own appc = appc) := by
  constructor <;> intro h <;> simp [Service.config, h]

/-- Witness for the amended C9 statement. -/
theorem service_config_truthy_fallback_witness :
    Service.config (some ⟨3, 1⟩) (some ⟨2, 2⟩) = some ⟨3, 1⟩ ∧
    Service.config none (some ⟨2, 2⟩) = some ⟨2, 2⟩ :=
  ⟨(service_config_truthy_fallback (some ⟨3, 1⟩) (some ⟨2, 2⟩)).1 (by decide),
    (service_config_truthy_fallback none (some ⟨2, 2⟩)).2 (by decide)⟩

/-- C10: for every `Runnable`, `is_alive` and `is_done` are never both
truthy; while `_run_f` is unset, `is_started` is false and `is_alive`
and `is_done` both evaluate to the unset handle (`None`), not to the
boolean `False`; once a handle exists, `is_started` is true and exactly
one of `is_alive` and `is_done` is truthy; and a successful `start`
establishes `is_started`. -/
theorem runnable_liveness_trichotomy (r : Runnable) (ph : Phases) :
    (¬(r.is_alive.truthy = true ∧ r.is_done.truthy = true)) ∧
    (r.runF = none →
      r.is_started = false ∧ r.is_alive = .pyNone ∧ r.is_done = .pyNone) ∧
    (∀ h, r.runF = some h →
      r.is_started = true ∧ r.is_alive.truthy = !r.is_done.truthy) ∧
    (r.runF = none → (r.start ph).1.is_started = true) := by
  obtain ⟨f, rf⟩ := r
  cases rf with
  | none =>
    refine ⟨?_, ?_, ?_, ?_⟩ <;>
      simp [Runnable.is_alive, Runnable.is_done, Runnable.is_started,
        PyTruth.truthy, Runnable.start]
  | some h =>
    refine ⟨?_, ?_, ?_, ?_⟩ <;>
      simp [Runnable.is_alive, Runnable.is_done, Runnable.is_started,
        PyTruth.truthy, Runnable.start]

/-- Witness for C10 at a fresh `Runnable`. -/
theorem runnable_liveness_trichotomy_witness :
    Runnable.mkFresh.is_started = false ∧
    Runnable.mkFresh.is_alive = .pyNone ∧
    Runnable.mkFresh.is_done = .pyNone ∧
    (Runnable.mkFresh.start phasesPlain).1.is_started = true :=
  ⟨((runnable_liveness_trichotomy Runnable.mkFresh phasesPlain).2.1 rfl).1,
    ((runnable_liveness_trichotomy Runnable.mkFresh phasesPlain).2.1 rfl).2.1,
    ((runnable_liveness_trichotomy Runnable.mkFresh phasesPlain).2.1 rfl).2.2,
    (runnable_liveness_trichotomy Runnable.mkFresh phasesPlain).2.2.2 rfl⟩
